import Mathlib

/-
Verification of the search/filter/history logic of `src/script.js`.

The script wires five behaviours onto a static formula-reference page: live
text filtering of formula cards and their categories, expand/collapse of
derivation/example content, a deferred MathJax re-typeset, a debounced
search-history store in `localStorage`, and keyboard shortcuts.  Everything
below is a shallow embedding of that code: DOM state is made explicit as a
`PageState`, the event listeners become functions on it, and the browser
timer queue is modelled as lists of pending timer identifiers.
-/

namespace MathFormula

/-- One formula card (`.formula-card`).  `title` is the text of its `h4`
heading, `fullText` its whole `textContent` (which in the page includes the
title), `hidden` records membership of the `hidden` class, and the two
`*Display` fields record the inline `style.display` of its
`derivation-content` and `example-content` regions. -/
structure Card where
  title : String
  fullText : String
  hidden : Bool
  derivationDisplay : String
  exampleDisplay : String
deriving DecidableEq, Repr

/-- One `.category` container holding its formula cards. -/
structure Category where
  cards : List Card
  hidden : Bool
deriving DecidableEq, Repr

/-- The page/browser state the script manipulates: the search box value, the
categories with their cards, the `localStorage` slot for the history key,
and the pending-timer queues for the two `setTimeout` sites (`mathjaxTimers`
for the re-typeset timers, `saveTimers` for the history-save debounce
timers, `saveHandle` the value of the `searchTimeout` variable, `nextTimer`
a fresh timer id counter). -/
structure PageState where
  value : String
  categories : List Category
  stored : Option String
  mathjaxTimers : List Nat
  saveTimers : List Nat
  saveHandle : Option Nat
  nextTimer : Nat
deriving DecidableEq, Repr

/-- JavaScript `s.toLowerCase()`: lower-case every character. -/
def jsToLower (s : String) : String :=
  ⟨s.data.map Char.toLower⟩

/-- JavaScript `s.trim()`: strip leading and trailing whitespace. -/
def jsTrim (s : String) : String :=
  ⟨((s.data.dropWhile Char.isWhitespace).reverse.dropWhile Char.isWhitespace).reverse⟩

/-- JavaScript `hay.includes(needle)`: substring containment. -/
def strIncludes (hay needle : String) : Bool :=
  decide (needle.data <:+: hay.data)

/-- The match test of the search listener (line 41 of `src/script.js`):
`title.includes(searchTerm) || content.includes(searchTerm)`, where `title`
and `content` have been lower-cased and `searchTerm` is the lower-cased
box value. -/
def cardMatches (searchTerm : String) (card : Card) : Bool :=
  strIncludes (jsToLower card.title) searchTerm || strIncludes (jsToLower card.fullText) searchTerm

/-- Effect of the search listener on one card (lines 33-48): remove the
`hidden` class on a match, add it otherwise. -/
def applyCardFilter (searchTerm : String) (card : Card) : Card :=
  if cardMatches searchTerm card then
    { card with hidden := false }
  else
    { card with hidden := true }

/-- Effect of the search listener on one category (lines 52-64), run after
every card has been updated: the category is hidden exactly when
`querySelectorAll('.formula-card:not(.hidden)').length === 0`. -/
def applyCategoryFilter (searchTerm : String) (cat : Category) : Category :=
  let cs := cat.cards.map (applyCardFilter searchTerm)
  { cat with
    cards := cs
    hidden := (cs.filter fun c => !c.hidden).length == 0 }

/-- The first `input` listener on the search box (lines 24-65): lower-case
the box value, recompute every card's visibility, then every category's. -/
def filterListener (s : PageState) : PageState :=
  let searchTerm := jsToLower s.value
  { s with categories := s.categories.map (applyCategoryFilter searchTerm) }

/-- The MathJax `input` listener (lines 170-176): `setTimeout(..., 100)`
schedules a fresh re-typeset timer; no `clearTimeout` is ever issued at
this site, so the pending queue only grows. -/
def mathjaxListener (s : PageState) : PageState :=
  { s with
    mathjaxTimers := s.mathjaxTimers ++ [s.nextTimer]
    nextTimer := s.nextTimer + 1 }

/-- The history-debounce `input` listener (lines 336-346):
`clearTimeout(searchTimeout)` cancels the timer named by the handle if it
is still pending, then `searchTimeout = setTimeout(..., 1000)` schedules a
fresh one and stores its handle. -/
def debounceListener (s : PageState) : PageState :=
  let cleared :=
    match s.saveHandle with
    | some h => s.saveTimers.filter fun t => decide (t ≠ h)
    | none => s.saveTimers
  { s with
    saveTimers := cleared ++ [s.nextTimer]
    saveHandle := some s.nextTimer
    nextTimer := s.nextTimer + 1 }

/-- Dispatching an `input` event on the search box runs its three listeners
in registration order: filter (line 24), MathJax deferral (line 170),
history debounce (line 336). -/
def inputEvent (s : PageState) : PageState :=
  debounceListener (mathjaxListener (filterListener s))

/-- The `Escape` branch of the `keydown` listener (lines 277-285): if the
search box is non-empty, empty it and dispatch a synthetic `input` event;
otherwise do nothing. -/
def escapeKeydown (s : PageState) : PageState :=
  if s.value = "" then s
  else inputEvent { s with value := "" }

/-- Manually emptying the search field and dispatching an `input` event. -/
def manualClearInput (s : PageState) : PageState :=
  inputEvent { s with value := "" }

/-- Page state right after load: empty search box, no pending timers. -/
def initState : PageState :=
  { value := ""
    categories := []
    stored := none
    mathjaxTimers := []
    saveTimers := []
    saveHandle := none
    nextTimer := 0 }

/-- `MAX_HISTORY` (line 296). -/
def MAX_HISTORY : Nat := 10

/-- `saveHistory` (lines 310-332), expressed on the in-memory history list:
no-op when the term trims to the empty string (the JS falsiness test
`!term.trim()`); otherwise drop every element equal to the term
(`filter(item => item !== term)`), `unshift` the term, and truncate with
`slice(0, MAX_HISTORY)` when the length exceeds `MAX_HISTORY`. -/
def saveHistory (term : String) (history : List String) : List String :=
  if jsTrim term = "" then history
  else
    let filtered := history.filter fun item => decide (item ≠ term)
    let fresh := term :: filtered
    if fresh.length > MAX_HISTORY then fresh.take MAX_HISTORY else fresh

/-- Running a sequence of `saveHistory` calls, oldest first, from a given
starting history. -/
def runSaves (start : List String) (terms : List String) : List String :=
  terms.foldl (fun h t => saveHistory t h) start

/-- The spec's history invariant: at most `MAX_HISTORY` entries and no
duplicate elements (order-as-recency is stated separately, through the
eviction scenario). -/
def historyInvariant (h : List String) : Prop :=
  h.length ≤ MAX_HISTORY ∧ h.Nodup

/-- Display style of a `derivation-content` region right after setup
(line 103 sets `display = 'block'`). -/
def derivationInitDisplay : String := "block"

/-- Effect of one click on the title of a derivation card (lines 119-130):
`display === 'none'` flips to `'block'`, anything else flips to `'none'`. -/
def derivationClick (display : String) : String :=
  if display = "none" then "block" else "none"

/-- Display style of an `example-content` region right after setup
(line 144 sets `display = 'block'`). -/
def exampleInitDisplay : String := "block"

/-- Effect of one click on the card title on the `example-content` region:
the source's example block (lines 138-162) sets the initial display, the
pointer cursor, the `hasToggle` marker and the icon, but registers no click
listener, so a click leaves the example display unchanged. -/
def exampleHeaderClick (display : String) : String := display

/-- JSON values, as far as the claims need them: the history code only ever
distinguishes shapes, so object fields are not modelled. -/
inductive Json where
  | null : Json
  | bool (b : Bool) : Json
  | num (n : Int) : Json
  | str (s : String) : Json
  | arr (elems : List Json) : Json
  | obj : Json
deriving Repr

/-- Outcome of a call to `loadHistory`: a normal return, or an uncaught
exception propagating out of `JSON.parse`. -/
inductive LoadResult where
  | ok (v : Json) : LoadResult
  | thrown : LoadResult
deriving Repr

/-- `loadHistory` (lines 299-307): `history ? JSON.parse(history) : []`.
The stored value is absent (`getItem` returned `null`) or the empty string
exactly when the JS truthiness test fails and `[]` is returned; otherwise
`JSON.parse` runs, its failure propagating as an uncaught exception.  The
deserializer itself is external to the repository, so it is a parameter. -/
def loadHistory (parse : String → Option Json) (stored : Option String) : LoadResult :=
  match stored with
  | none => .ok (.arr [])
  | some h =>
    if h = "" then .ok (.arr [])
    else
      match parse h with
      | some v => .ok v
      | none => .thrown

/-- Modelled from the spec: the external deserializer `JSON.parse` (spec §6
lists the persisted value as a JSON array of strings; the deserializer is a
browser API, not code of this repository).  The JSON grammar derives no
value from empty input, so parsing `""` fails; the only well-formed input
the claims evaluate is the empty array. -/
def jsonParseModel (s : String) : Option Json :=
  if s = "[]" then some (.arr []) else none

/-- Shape test for the declared `load() -> string[]` interface: a JSON
array whose elements are all strings. -/
def isStringArray : Json → Bool
  | .arr elems => elems.all fun j => match j with | .str _ => true | _ => false
  | _ => false

/-- Everything the filter listener is not supposed to touch on a card:
title, full text, and the two toggle display styles. -/
def cardFrame (c : Card) : String × String × String × String :=
  (c.title, c.fullText, c.derivationDisplay, c.exampleDisplay)

/-- Well-formedness of the timer bookkeeping: handles are in the past of the
fresh-id counter, and the debounce site has at most one pending timer, the
one named by `searchTimeout`. -/
def timersWF (s : PageState) : Prop :=
  (∀ h, s.saveHandle = some h → h < s.nextTimer) ∧
  (s.saveTimers = [] ∨ ∃ h, s.saveHandle = some h ∧ s.saveTimers = [h]) ∧
  (∀ t ∈ s.mathjaxTimers, t < s.nextTimer)

/-- On a non-blank term, `saveHistory` is remove-prepend-truncate in one step:
the guarded `slice` is the same as an unconditional `take MAX_HISTORY`. -/
theorem saveHistory_eq_take (term : String) (history : List String)
    (h : jsTrim term ≠ "") :
    saveHistory term history =
      (term :: history.filter fun item => decide (item ≠ term)).take MAX_HISTORY := by
  rw [saveHistory, if_neg h]
  by_cases hlen :
      (term :: history.filter fun item => decide (item ≠ term)).length > MAX_HISTORY
  · simp only [hlen, if_pos]
  · rw [if_neg hlen, List.take_of_length_le (Nat.le_of_not_lt hlen)]

/-- The saved term never survives the filter step. -/
theorem not_mem_filter_ne (term : String) (history : List String) :
    term ∉ history.filter fun item => decide (item ≠ term) := by
  simp

/-- After a non-blank save, the term occurs exactly once in the history. -/
theorem count_saveHistory (term : String) (history : List String)
    (h : jsTrim term ≠ "") :
    List.count term (saveHistory term history) = 1 := by
  rw [saveHistory_eq_take term history h]
  have hnm := not_mem_filter_ne term history
  rw [show MAX_HISTORY = 9 + 1 from rfl, List.take_succ_cons, List.count_cons_self]
  have : term ∉ (history.filter fun item => decide (item ≠ term)).take 9 :=
    fun hmem => hnm ((List.take_sublist 9 _).mem hmem)
  rw [List.count_eq_zero_of_not_mem this]

/-- Claim C2: `saveHistory` is a no-op when the term trims to the empty string;
otherwise it removes every stored occurrence equal to the term, prepends the
term, and truncates to the first `MAX_HISTORY` elements — hence saving the
same term twice leaves exactly one occurrence of it, not two. -/
theorem saveHistory_spec (term : String) (history : List String) :
    (jsTrim term = "" → saveHistory term history = history) ∧
    (jsTrim term ≠ "" →
      saveHistory term history =
        (term :: history.filter fun item => decide (item ≠ term)).take MAX_HISTORY ∧
      List.count term (saveHistory term (saveHistory term history)) = 1) := by
  constructor
  · intro h
    rw [saveHistory, if_pos h]
  · intro h
    exact ⟨saveHistory_eq_take term history h, count_saveHistory term _ h⟩

/-- Witness for C2: both branches evaluated at concrete inputs. -/
theorem saveHistory_spec_witness :
    saveHistory " " ["a"] = ["a"] ∧
    (saveHistory "x" ["y", "x"] =
        ("x" :: (["y", "x"].filter fun item => decide (item ≠ "x"))).take MAX_HISTORY ∧
      List.count "x" (saveHistory "x" (saveHistory "x" ["y", "x"])) = 1) :=
  ⟨(saveHistory_spec " " ["a"]).1 (by decide), (saveHistory_spec "x" ["y", "x"]).2 (by decide)⟩

/-- A non-blank save preserves the history invariant. -/
theorem saveHistory_invariant (term : String) (history : List String)
    (hi : historyInvariant history) : historyInvariant (saveHistory term history) := by
  by_cases h : jsTrim term = ""
  · rw [saveHistory, if_pos h]; exact hi
  · rw [saveHistory_eq_take term history h]
    constructor
    · calc ((term :: history.filter fun item => decide (item ≠ term)).take MAX_HISTORY).length
          = min MAX_HISTORY (term :: history.filter fun item => decide (item ≠ term)).length :=
            List.length_take ..
        _ ≤ MAX_HISTORY := Nat.min_le_left ..
    · refine (List.take_sublist _ _).nodup (List.nodup_cons.mpr ⟨not_mem_filter_ne term history, ?_⟩)
      exact hi.2.filter _

/-- Folding distinct, non-blank saves over the empty history keeps the
`MAX_HISTORY` most recent terms, most-recent-first. -/
theorem runSaves_nil (ts : List String) (hnd : ts.Nodup)
    (hne : ∀ t ∈ ts, jsTrim t ≠ "") :
    runSaves [] ts = ts.reverse.take MAX_HISTORY := by
  induction ts using List.reverseRecOn with
  | nil => rfl
  | append_singleton ts t ih =>
    have hnd' : ts.Nodup := (List.nodup_append.mp hnd).1
    have htts : t ∉ ts := by
      intro hmem
      exact (List.nodup_append.mp hnd).2.2 hmem (List.mem_singleton.mpr rfl)
    have hne' : ∀ x ∈ ts, jsTrim x ≠ "" := fun x hx => hne x (List.mem_append_left _ hx)
    have hnet : jsTrim t ≠ "" := hne t (List.mem_append_right _ (List.mem_singleton.mpr rfl))
    have hstep : runSaves [] (ts ++ [t]) = saveHistory t (runSaves [] ts) := by
      simp [runSaves, List.foldl_append]
    rw [hstep, ih hnd' hne', saveHistory_eq_take t _ hnet]
    have hfilter :
        (ts.reverse.take MAX_HISTORY).filter (fun item => decide (item ≠ t)) =
          ts.reverse.take MAX_HISTORY := by
      rw [List.filter_eq_self]
      intro a ha
      have : a ∈ ts := List.mem_reverse.mp ((List.take_sublist _ _).mem ha)
      simp only [decide_eq_true_eq]
      intro heq
      exact htts (heq ▸ this)
    rw [hfilter, List.reverse_append, List.reverse_singleton, List.singleton_append,
      show MAX_HISTORY = 9 + 1 from rfl, List.take_succ_cons, List.take_succ_cons,
      List.take_take]
    norm_num

/-- Claim C3: every save preserves the history invariant (length at most 10,
no duplicates), and 11 sequential distinct non-blank saves from the empty
history leave exactly the 10 most recent terms, most-recent-first, with the
oldest term evicted. -/
theorem history_invariant_and_eviction :
    (∀ (term : String) (history : List String),
      historyInvariant history → historyInvariant (saveHistory term history)) ∧
    (∀ ts : List String, ts.length = 11 → ts.Nodup → (∀ t ∈ ts, jsTrim t ≠ "") →
      runSaves [] ts = ts.reverse.take MAX_HISTORY ∧
      (runSaves [] ts).length = MAX_HISTORY ∧
      ∀ t0, ts.head? = some t0 → t0 ∉ runSaves [] ts) := by
  refine ⟨saveHistory_invariant, ?_⟩
  intro ts hlen hnd hne
  have hrun := runSaves_nil ts hnd hne
  refine ⟨hrun, ?_, ?_⟩
  · rw [hrun, List.length_take, List.length_reverse, hlen]
    decide
  · intro t0 ht0
    obtain ⟨rest, hts⟩ : ∃ rest, ts = t0 :: rest := by
      cases ts with
      | nil => cases ht0
      | cons a l => exact ⟨l, by cases ht0; rfl⟩
    subst hts
    have hrest : rest.length = 10 := by
      simpa using hlen
    rw [hrun]
    intro hmem
    have : t0 ∈ rest.reverse := by
      have h10 : (10 : Nat) = rest.reverse.length := by simp [hrest]
      rw [List.reverse_cons, show MAX_HISTORY = 10 from rfl, h10, List.take_left] at hmem
      exact hmem
    exact (List.nodup_cons.mp hnd).1 (List.mem_reverse.mp this)

/-- Witness for C3: the invariant preservation and the 11-save eviction
scenario evaluated at concrete inputs. -/
theorem history_invariant_and_eviction_witness :
    historyInvariant (saveHistory "x" ["a"]) ∧
    (runSaves [] ["t1", "t2", "t3", "t4", "t5", "t6", "t7", "t8", "t9", "t10", "t11"] =
        ["t1", "t2", "t3", "t4", "t5", "t6", "t7", "t8", "t9", "t10",
          "t11"].reverse.take MAX_HISTORY ∧
      (runSaves [] ["t1", "t2", "t3", "t4", "t5", "t6", "t7", "t8", "t9", "t10",
          "t11"]).length = MAX_HISTORY ∧
      ∀ t0, (["t1", "t2", "t3", "t4", "t5", "t6", "t7", "t8", "t9", "t10",
          "t11"] : List String).head? = some t0 →
        t0 ∉ runSaves [] ["t1", "t2", "t3", "t4", "t5", "t6", "t7", "t8", "t9", "t10", "t11"]) :=
  ⟨history_invariant_and_eviction.1 "x" ["a"] (by constructor <;> decide),
    history_invariant_and_eviction.2
      ["t1", "t2", "t3", "t4", "t5", "t6", "t7", "t8", "t9", "t10", "t11"]
      (by decide) (by decide) (by decide)⟩

/-- Claim C1: after a filter pass an entry is visible (no `hidden` class) iff
the case-folded query is a substring of its case-folded title or of its
case-folded full text; the empty query leaves every entry visible.  The last
conjunct records that the pass applies exactly this per-card rule, with the
case-folded box value, to every card of every category. -/
theorem filter_visibility_iff (q : String) (c : Card) (s : PageState) :
    ((applyCardFilter (jsToLower q) c).hidden = false ↔
      ((jsToLower q).data <:+: (jsToLower c.title).data ∨
        (jsToLower q).data <:+: (jsToLower c.fullText).data)) ∧
    (applyCardFilter (jsToLower "") c).hidden = false ∧
    (filterListener s).categories = s.categories.map (applyCategoryFilter (jsToLower s.value)) := by
  refine ⟨?_, ?_, rfl⟩
  · by_cases h : cardMatches (jsToLower q) c
    · rw [applyCardFilter, if_pos h]
      simpa [cardMatches, strIncludes] using h
    · rw [applyCardFilter, if_neg h]
      simp only [cardMatches, strIncludes, Bool.or_eq_true, decide_eq_true_eq] at h
      simpa using h
  · have h : cardMatches (jsToLower "") c = true := by
      simp [cardMatches, strIncludes, jsToLower]
    rw [applyCardFilter, if_pos h]

/-- Claim C6: after a filter pass a category carries the `hidden` class iff
every formula card it contains does, and its visibility is computed from the
already-filtered cards of the same pass. -/
theorem category_hidden_iff (searchTerm : String) (cat : Category) :
    ((applyCategoryFilter searchTerm cat).hidden = true ↔
      ∀ c ∈ (applyCategoryFilter searchTerm cat).cards, c.hidden = true) ∧
    (applyCategoryFilter searchTerm cat).cards = cat.cards.map (applyCardFilter searchTerm) := by
  refine ⟨?_, rfl⟩
  show ((cat.cards.map (applyCardFilter searchTerm)).filter fun c => !c.hidden).length == 0 ↔ _
  simp [List.length_eq_zero, List.filter_eq_nil_iff, applyCategoryFilter]

/-- Claim C7: the `Escape` branch clears the search field only when it is
non-empty, and then yields exactly the state produced by manually emptying
the field and dispatching an `input` event. -/
theorem escape_clear_refines_input (s : PageState) :
    (s.value = "" → escapeKeydown s = s) ∧
    (s.value ≠ "" → escapeKeydown s = manualClearInput s) := by
  constructor
  · intro h
    rw [escapeKeydown, if_pos h]
  · intro h
    rw [escapeKeydown, if_neg h, manualClearInput]

/-- Witness for C7: both branches at concrete states. -/
theorem escape_clear_refines_input_witness :
    escapeKeydown
        { value := "sin", categories := [], stored := none, mathjaxTimers := [],
          saveTimers := [], saveHandle := none, nextTimer := 0 } =
      manualClearInput
        { value := "sin", categories := [], stored := none, mathjaxTimers := [],
          saveTimers := [], saveHandle := none, nextTimer := 0 } ∧
    escapeKeydown initState = initState :=
  ⟨(escape_clear_refines_input _).2 (by decide), (escape_clear_refines_input initState).1 rfl⟩

/-- The filter listener changes nothing of a card but its `hidden` class. -/
theorem cardFrame_applyCardFilter (searchTerm : String) (c : Card) :
    cardFrame (applyCardFilter searchTerm c) = cardFrame c := by
  rw [applyCardFilter]
  split <;> rfl

/-- Claim C9: the immediate filter handler mutates only `hidden` class
membership: the search value, the stored history, every pending timer, the
order of the cards, their titles and texts, and the inline display of the
derivation/example regions (the toggle state) are all unchanged. -/
theorem filter_frame_effect (s : PageState) :
    (filterListener s).value = s.value ∧
    (filterListener s).stored = s.stored ∧
    (filterListener s).mathjaxTimers = s.mathjaxTimers ∧
    (filterListener s).saveTimers = s.saveTimers ∧
    (filterListener s).saveHandle = s.saveHandle ∧
    (filterListener s).nextTimer = s.nextTimer ∧
    ((filterListener s).categories.map fun cat => cat.cards.map cardFrame) =
      s.categories.map fun cat => cat.cards.map cardFrame := by
  refine ⟨rfl, rfl, rfl, rfl, rfl, rfl, ?_⟩
  show (s.categories.map (applyCategoryFilter (jsToLower s.value))).map _ = _
  rw [List.map_map]
  apply List.map_congr_left
  intro cat _
  show ((cat.cards.map (applyCardFilter (jsToLower s.value))).map cardFrame) = _
  rw [List.map_map]
  apply List.map_congr_left
  intro c _
  exact cardFrame_applyCardFilter _ c

/-- Claim C4, evaluated at the failing input: a derivation section starts
expanded and round-trips (expanded, collapsed, expanded) under clicks of its
header, but an example section — although it also starts expanded — is left
expanded by a header activation: the source registers no click listener for
example content, so no collapse transition exists for that kind. -/
theorem example_toggle_missing_handler :
    derivationInitDisplay = "block" ∧
    derivationClick derivationInitDisplay = "none" ∧
    derivationClick (derivationClick derivationInitDisplay) = derivationInitDisplay ∧
    exampleInitDisplay = "block" ∧
    exampleHeaderClick exampleInitDisplay = "block" ∧
    exampleHeaderClick exampleInitDisplay ≠ "none" := by
  refine ⟨rfl, ?_, ?_, rfl, rfl, by decide⟩ <;> decide

/-- Counterexample to claim C5 as stated: after a second `input` event, the
re-typeset timer scheduled by the first event is still pending — the
`setTimeout` at the MathJax site is never cleared, so a later triggering
event does not supersede the earlier timer of that kind. -/
theorem mathjax_timer_not_superseded :
    (mathjaxListener (mathjaxListener initState)).mathjaxTimers = [0, 1] ∧
    0 ∈ (mathjaxListener (mathjaxListener initState)).mathjaxTimers := by
  refine ⟨rfl, ?_⟩
  decide

/-- Claim C5 as amended: for the 1000ms history-save debounce a later input
event does cancel the pending earlier timer, leaving exactly the newly
scheduled one — hence at most one pending save per pause in typing; the
~100ms re-typeset site cancels nothing: every previously pending re-typeset
timer is still pending after a later event, which merely appends a fresh
timer.  Both listeners preserve the timer bookkeeping invariant. -/
theorem debounce_supersession_amended (s : PageState) (hwf : timersWF s) :
    ((∀ h ∈ s.saveTimers, h ∉ (debounceListener s).saveTimers) ∧
      (debounceListener s).saveTimers = [s.nextTimer] ∧
      timersWF (debounceListener s)) ∧
    ((mathjaxListener s).mathjaxTimers = s.mathjaxTimers ++ [s.nextTimer] ∧
      (∀ t ∈ s.mathjaxTimers, t ∈ (mathjaxListener s).mathjaxTimers) ∧
      timersWF (mathjaxListener s)) := by
  obtain ⟨hhandle, hsave, hmj⟩ := hwf
  have hcleared :
      (match s.saveHandle with
        | some h => s.saveTimers.filter fun t => decide (t ≠ h)
        | none => s.saveTimers) = [] := by
    rcases hsave with hnil | ⟨h, hh, hl⟩
    · cases s.saveHandle <;> simp [hnil]
    · rw [hh, hl]
      simp
  refine ⟨⟨?_, ?_, ?_, ?_, ?_⟩, rfl, ?_, ?_, ?_, ?_⟩
  · intro h hmem hmem'
    rcases hsave with hnil | ⟨h0, hh0, hl0⟩
    · rw [hnil] at hmem
      cases hmem
    · rw [hl0] at hmem
      have hh : h = h0 := List.mem_singleton.mp hmem
      have hlt : h0 < s.nextTimer := hhandle h0 hh0
      rw [debounceListener] at hmem'
      simp only [hcleared, List.nil_append] at hmem'
      have : h = s.nextTimer := List.mem_singleton.mp hmem'
      omega
  · rw [debounceListener]
    simp only [hcleared, List.nil_append]
  · intro h hh
    have : h = s.nextTimer := by
      rw [debounceListener] at hh
      exact (Option.some_inj.mp hh).symm
    show h < s.nextTimer + 1
    omega
  · right
    refine ⟨s.nextTimer, rfl, ?_⟩
    rw [debounceListener]
    simp only [hcleared, List.nil_append]
  · intro t ht
    have := hmj t ht
    show t < s.nextTimer + 1
    omega
  · intro t ht
    exact List.mem_append_left _ ht
  · intro h hh
    have := hhandle h hh
    show h < s.nextTimer + 1
    omega
  · rcases hsave with hnil | ⟨h0, hh0, hl0⟩
    · left
      exact hnil
    · right
      exact ⟨h0, hh0, hl0⟩
  · intro t ht
    show t < s.nextTimer + 1
    rcases List.mem_append.mp ht with hold | hnew
    · have := hmj t hold
      omega
    · have : t = s.nextTimer := List.mem_singleton.mp hnew
      omega

/-- Witness for C5 (amended), at the freshly loaded page state. -/
theorem debounce_supersession_amended_witness :
    (debounceListener initState).saveTimers = [initState.nextTimer] ∧
    (mathjaxListener initState).mathjaxTimers = initState.mathjaxTimers ++ [initState.nextTimer] := by
  have hwf : timersWF initState := by
    refine ⟨?_, Or.inl rfl, ?_⟩ <;> intro x hx <;> simp [initState] at hx
  have h := debounce_supersession_amended initState hwf
  exact ⟨h.1.2.1, h.2.1⟩

/-- Counterexample to claim C8 as stated: an empty string stored under the
history key is present and not parseable (the JSON grammar rejects empty
input, as the deserializer model records), yet `loadHistory` returns the
empty array instead of letting a deserialization error propagate — the JS
truthiness test treats `""` like an absent value. -/
theorem load_empty_string_fallback :
    jsonParseModel "" = none ∧
    loadHistory jsonParseModel (some "") = .ok (.arr []) ∧
    loadHistory jsonParseModel (some "") ≠ .thrown :=
  ⟨rfl, rfl, fun h => nomatch h⟩

/-- Claim C8 as amended: `loadHistory` returns the empty array when nothing
is stored, or when the stored value is absent or the empty string (both
falsy); when the stored value is present, non-empty and not parseable, the
deserialization failure propagates uncaught. -/
theorem load_fallback_amended (parse : String → Option Json) :
    loadHistory parse none = .ok (.arr []) ∧
    loadHistory parse (some "") = .ok (.arr []) ∧
    ∀ s : String, s ≠ "" → parse s = none → loadHistory parse (some s) = .thrown := by
  refine ⟨rfl, rfl, ?_⟩
  intro s hs hp
  rw [loadHistory, if_neg hs, hp]

/-- Witness for C8 (amended): the fatal branch and the absent branch at
concrete inputs. -/
theorem load_fallback_amended_witness :
    loadHistory jsonParseModel (some "oops") = .thrown ∧
    loadHistory jsonParseModel none = .ok (.arr []) := by
  have h := load_fallback_amended jsonParseModel
  exact ⟨h.2.2 "oops" (by decide) rfl, h.1⟩

/-- Claim C10: `loadHistory` performs no shape validation on successfully
parsed data: whatever value the deserializer produces for a non-empty stored
string is returned as-is, even when it is not an array of strings, silently
violating the declared `load() -> string[]` interface. -/
theorem load_no_shape_validation (parse : String → Option Json) (s : String) (v : Json)
    (hs : s ≠ "") (hp : parse s = some v) (hshape : isStringArray v = false) :
    loadHistory parse (some s) = .ok v ∧ isStringArray v = false := by
  refine ⟨?_, hshape⟩
  rw [loadHistory, if_neg hs, hp]

/-- Witness for C10: a stored numeric literal is parsed to a number and
returned as-is. -/
theorem load_no_shape_validation_witness :
    loadHistory (fun _ => some (.num 5)) (some "5") = .ok (.num 5) ∧
    isStringArray (.num 5) = false :=
  load_no_shape_validation (fun _ => some (.num 5)) "5" (.num 5) (by decide) rfl rfl

end MathFormula
